import Mathlib

/-!
Verification of the apphub Python sandbox child runtime
(`services/catalog/src/jobs/sandbox/pythonChild.py`).

The development shallowly embeds the runtime's pure core:

* `PyVal` models the Python value universe the runtime manipulates
  (JSON-like values plus opaque objects); `PyKey` models dictionary keys.
* `to_json_value` embeds the result sanitizer of the same name
  (the sentinel `UNSUPPORTED` becomes `Option.none`).
* `json_roundtrip` embeds `sanitize_for_ipc`, i.e. the
  `json.loads(json.dumps(...))` round trip: non-finite floats survive
  untouched, basic non-string keys are coerced to strings, and
  non-serializable objects raise.
* `ensure_within_bundle`, `normalize_path_argument`, `guarded_open` and
  `wrapped_call` embed the path resolver and the filesystem guards, with
  `os.path.realpath` / `os.path.relpath` / `os.path.join` kept abstract as an
  `OsOps` record (the POSIX separator is fixed to `/` as in the deployment).
* `handle_parent_message` and the event relation `dstep`/`drun` embed the
  dispatcher's pending-request table.
* `execute_finish` embeds the tail of `execute_start` (result emission,
  cancellation and exception handling); `execute_start_entry` embeds its
  entry-file containment check; `resolve_handler` embeds handler resolution.
-/

/-- Dictionary keys of Python values: strings, ints (which the JSON encoder
coerces to strings), and any other hashable object (which it rejects). -/
inductive PyKey where
  | str (s : String)
  | int (n : Int)
  | other (tag : Nat)
deriving DecidableEq, Repr

mutual

/-- Python values reachable by the sandbox serializers.  Floats are modelled
as a finiteness flag plus an integer payload standing for the numeric value;
`other` stands for any object outside the JSON-representable universe.
Python tuples are merged into `list` (both are converted identically). -/
inductive PyVal where
  | null
  | str (s : String)
  | bool (b : Bool)
  | int (n : Int)
  | float (finite : Bool) (payload : Int)
  | list (items : PyList)
  | dict (entries : PyDict)
  | other (tag : Nat)
deriving DecidableEq, Repr

/-- Lists of Python values. -/
inductive PyList where
  | nil
  | cons (head : PyVal) (tail : PyList)
deriving DecidableEq, Repr

/-- Python dictionaries as ordered key/value sequences. -/
inductive PyDict where
  | nil
  | cons (key : PyKey) (val : PyVal) (tail : PyDict)
deriving DecidableEq, Repr

end

mutual

/-- `to_json_value` (pythonChild.py lines 63-89): the result sanitizer.
`Option.none` models the `UNSUPPORTED` sentinel. -/
def to_json_value : PyVal → Option PyVal
  | PyVal.null => some PyVal.null
  | PyVal.str s => some (PyVal.str s)
  | PyVal.bool b => some (PyVal.bool b)
  | PyVal.int n => some (PyVal.int n)
  | PyVal.float finite payload =>
      if finite then some (PyVal.float finite payload) else Option.none
  | PyVal.list xs => some (PyVal.list (to_json_items xs))
  | PyVal.dict es => some (PyVal.dict (to_json_entries es))
  | PyVal.other _ => Option.none

/-- List branch of `to_json_value`: convert entries, dropping unsupported. -/
def to_json_items : PyList → PyList
  | PyList.nil => PyList.nil
  | PyList.cons x xs =>
      match to_json_value x with
      | some v => PyList.cons v (to_json_items xs)
      | Option.none => to_json_items xs

/-- Dict branch of `to_json_value`: keep string keys whose value converts. -/
def to_json_entries : PyDict → PyDict
  | PyDict.nil => PyDict.nil
  | PyDict.cons (PyKey.str s) v t =>
      match to_json_value v with
      | some v2 => PyDict.cons (PyKey.str s) v2 (to_json_entries t)
      | Option.none => to_json_entries t
  | PyDict.cons (PyKey.int _) _ t => to_json_entries t
  | PyDict.cons (PyKey.other _) _ t => to_json_entries t

end

mutual

/-- `sanitize_for_ipc` (lines 92-98): the `json.loads(json.dumps(v))` round
trip.  Python's `json.dumps` keeps non-finite floats (as `NaN`/`Infinity`
literals that `json.loads` parses back), coerces basic non-string keys with
`str(...)`, and raises `TypeError` on non-serializable objects and keys. -/
def json_roundtrip : PyVal → Except String PyVal
  | PyVal.null => Except.ok PyVal.null
  | PyVal.str s => Except.ok (PyVal.str s)
  | PyVal.bool b => Except.ok (PyVal.bool b)
  | PyVal.int n => Except.ok (PyVal.int n)
  | PyVal.float finite payload => Except.ok (PyVal.float finite payload)
  | PyVal.list xs =>
      match json_roundtrip_items xs with
      | Except.ok ys => Except.ok (PyVal.list ys)
      | Except.error e => Except.error e
  | PyVal.dict es =>
      match json_roundtrip_entries es with
      | Except.ok fs => Except.ok (PyVal.dict fs)
      | Except.error e => Except.error e
  | PyVal.other _ => Except.error "Object is not JSON serializable"

/-- List branch of `json_roundtrip`. -/
def json_roundtrip_items : PyList → Except String PyList
  | PyList.nil => Except.ok PyList.nil
  | PyList.cons x xs =>
      match json_roundtrip x with
      | Except.ok y =>
          match json_roundtrip_items xs with
          | Except.ok ys => Except.ok (PyList.cons y ys)
          | Except.error e => Except.error e
      | Except.error e => Except.error e

/-- Dict branch of `json_roundtrip`: string keys kept, int keys coerced. -/
def json_roundtrip_entries : PyDict → Except String PyDict
  | PyDict.nil => Except.ok PyDict.nil
  | PyDict.cons (PyKey.str s) v t =>
      match json_roundtrip v with
      | Except.ok w =>
          match json_roundtrip_entries t with
          | Except.ok fs => Except.ok (PyDict.cons (PyKey.str s) w fs)
          | Except.error e => Except.error e
      | Except.error e => Except.error e
  | PyDict.cons (PyKey.int n) v t =>
      match json_roundtrip v with
      | Except.ok w =>
          match json_roundtrip_entries t with
          | Except.ok fs => Except.ok (PyDict.cons (PyKey.str (toString n)) w fs)
          | Except.error e => Except.error e
      | Except.error e => Except.error e
  | PyDict.cons (PyKey.other _) _ _ =>
      Except.error "keys must be str, int, float, bool or None"

end

mutual

/-- A value inside the JSON-safe domain: finite floats, string keys, no
opaque objects. -/
def jsonSafe : PyVal → Bool
  | PyVal.null => true
  | PyVal.str _ => true
  | PyVal.bool _ => true
  | PyVal.int _ => true
  | PyVal.float finite _ => finite
  | PyVal.list xs => jsonSafeItems xs
  | PyVal.dict es => jsonSafeEntries es
  | PyVal.other _ => false

/-- `jsonSafe` on lists. -/
def jsonSafeItems : PyList → Bool
  | PyList.nil => true
  | PyList.cons x xs => jsonSafe x && jsonSafeItems xs

/-- `jsonSafe` on dictionaries: every key a string, every value safe. -/
def jsonSafeEntries : PyDict → Bool
  | PyDict.nil => true
  | PyDict.cons (PyKey.str _) v t => jsonSafe v && jsonSafeEntries t
  | PyDict.cons (PyKey.int _) _ _ => false
  | PyDict.cons (PyKey.other _) _ _ => false

end

mutual

/-- A non-finite float occurs somewhere in the value. -/
def hasBadFloat : PyVal → Bool
  | PyVal.float finite _ => !finite
  | PyVal.list xs => hasBadFloatItems xs
  | PyVal.dict es => hasBadFloatEntries es
  | _ => false

/-- `hasBadFloat` on lists. -/
def hasBadFloatItems : PyList → Bool
  | PyList.nil => false
  | PyList.cons x xs => hasBadFloat x || hasBadFloatItems xs

/-- `hasBadFloat` on dictionary values. -/
def hasBadFloatEntries : PyDict → Bool
  | PyDict.nil => false
  | PyDict.cons _ v t => hasBadFloat v || hasBadFloatEntries t

end

mutual

/-- A mapping entry under a non-string key occurs somewhere in the value. -/
def hasNonStrKey : PyVal → Bool
  | PyVal.list xs => hasNonStrKeyItems xs
  | PyVal.dict es => hasNonStrKeyEntries es
  | _ => false

/-- `hasNonStrKey` on lists. -/
def hasNonStrKeyItems : PyList → Bool
  | PyList.nil => false
  | PyList.cons x xs => hasNonStrKey x || hasNonStrKeyItems xs

/-- `hasNonStrKey` on dictionaries. -/
def hasNonStrKeyEntries : PyDict → Bool
  | PyDict.nil => false
  | PyDict.cons (PyKey.str _) v t => hasNonStrKey v || hasNonStrKeyEntries t
  | PyDict.cons (PyKey.int _) _ _ => true
  | PyDict.cons (PyKey.other _) _ _ => true

end

example : to_json_value (PyVal.dict (PyDict.cons (PyKey.int 1) (PyVal.str "a")
    (PyDict.cons (PyKey.str "k")
      (PyVal.list (PyList.cons (PyVal.float false 0)
        (PyList.cons (PyVal.int 2) PyList.nil))) PyDict.nil)))
    = some (PyVal.dict (PyDict.cons (PyKey.str "k")
        (PyVal.list (PyList.cons (PyVal.int 2) PyList.nil)) PyDict.nil)) := rfl

mutual

theorem tjv_safe : ∀ v w, to_json_value v = some w → jsonSafe w = true
  | PyVal.null, _, h => by simp [to_json_value] at h; subst h; rfl
  | PyVal.str _, _, h => by simp [to_json_value] at h; subst h; rfl
  | PyVal.bool _, _, h => by simp [to_json_value] at h; subst h; rfl
  | PyVal.int _, _, h => by simp [to_json_value] at h; subst h; rfl
  | PyVal.float finite _, w, h => by
      cases finite
      · simp [to_json_value] at h
      · simp [to_json_value] at h; subst h; rfl
  | PyVal.list xs, w, h => by
      simp [to_json_value] at h
      subst h
      simpa [jsonSafe] using tjv_safe_items xs
  | PyVal.dict es, w, h => by
      simp [to_json_value] at h
      subst h
      simpa [jsonSafe] using tjv_safe_entries es
  | PyVal.other _, w, h => by simp [to_json_value] at h

theorem tjv_safe_items : ∀ xs, jsonSafeItems (to_json_items xs) = true
  | PyList.nil => rfl
  | PyList.cons x xs => by
      cases hx : to_json_value x with
      | none => simpa [to_json_items, hx] using tjv_safe_items xs
      | some v =>
          simp only [to_json_items, hx, jsonSafeItems, Bool.and_eq_true]
          exact ⟨tjv_safe x v hx, tjv_safe_items xs⟩

theorem tjv_safe_entries : ∀ es, jsonSafeEntries (to_json_entries es) = true
  | PyDict.nil => rfl
  | PyDict.cons (PyKey.str s) v t => by
      cases hv : to_json_value v with
      | none => simpa [to_json_entries, hv] using tjv_safe_entries t
      | some w =>
          simp only [to_json_entries, hv, jsonSafeEntries, Bool.and_eq_true]
          exact ⟨tjv_safe v w hv, tjv_safe_entries t⟩
  | PyDict.cons (PyKey.int _) v t => by
      simpa [to_json_entries] using tjv_safe_entries t
  | PyDict.cons (PyKey.other _) v t => by
      simpa [to_json_entries] using tjv_safe_entries t

end

mutual

theorem safe_fix : ∀ v, jsonSafe v = true → to_json_value v = some v
  | PyVal.null, _ => rfl
  | PyVal.str _, _ => rfl
  | PyVal.bool _, _ => rfl
  | PyVal.int _, _ => rfl
  | PyVal.float finite _, h => by
      simp [jsonSafe] at h
      simp [to_json_value, h]
  | PyVal.list xs, h => by
      simp only [jsonSafe] at h
      simp [to_json_value, safe_fix_items xs h]
  | PyVal.dict es, h => by
      simp only [jsonSafe] at h
      simp [to_json_value, safe_fix_entries es h]
  | PyVal.other _, h => by simp [jsonSafe] at h

theorem safe_fix_items : ∀ xs, jsonSafeItems xs = true → to_json_items xs = xs
  | PyList.nil, _ => rfl
  | PyList.cons x xs, h => by
      simp only [jsonSafeItems, Bool.and_eq_true] at h
      simp [to_json_items, safe_fix x h.1, safe_fix_items xs h.2]

theorem safe_fix_entries : ∀ es, jsonSafeEntries es = true → to_json_entries es = es
  | PyDict.nil, _ => rfl
  | PyDict.cons (PyKey.str s) v t, h => by
      simp only [jsonSafeEntries, Bool.and_eq_true] at h
      simp [to_json_entries, safe_fix v h.1, safe_fix_entries t h.2]
  | PyDict.cons (PyKey.int _) v t, h => by simp [jsonSafeEntries] at h
  | PyDict.cons (PyKey.other _) v t, h => by simp [jsonSafeEntries] at h

end

mutual

theorem safe_roundtrip : ∀ v, jsonSafe v = true → json_roundtrip v = Except.ok v
  | PyVal.null, _ => rfl
  | PyVal.str _, _ => rfl
  | PyVal.bool _, _ => rfl
  | PyVal.int _, _ => rfl
  | PyVal.float _ _, _ => rfl
  | PyVal.list xs, h => by
      simp only [jsonSafe] at h
      simp [json_roundtrip, safe_roundtrip_items xs h]
  | PyVal.dict es, h => by
      simp only [jsonSafe] at h
      simp [json_roundtrip, safe_roundtrip_entries es h]
  | PyVal.other _, h => by simp [jsonSafe] at h

theorem safe_roundtrip_items :
    ∀ xs, jsonSafeItems xs = true → json_roundtrip_items xs = Except.ok xs
  | PyList.nil, _ => rfl
  | PyList.cons x xs, h => by
      simp only [jsonSafeItems, Bool.and_eq_true] at h
      simp [json_roundtrip_items, safe_roundtrip x h.1, safe_roundtrip_items xs h.2]

theorem safe_roundtrip_entries :
    ∀ es, jsonSafeEntries es = true → json_roundtrip_entries es = Except.ok es
  | PyDict.nil, _ => rfl
  | PyDict.cons (PyKey.str s) v t, h => by
      simp only [jsonSafeEntries, Bool.and_eq_true] at h
      simp [json_roundtrip_entries, safe_roundtrip v h.1, safe_roundtrip_entries t h.2]
  | PyDict.cons (PyKey.int _) v t, h => by simp [jsonSafeEntries] at h
  | PyDict.cons (PyKey.other _) v t, h => by simp [jsonSafeEntries] at h

end

mutual

theorem safe_no_badfloat : ∀ v, jsonSafe v = true → hasBadFloat v = false
  | PyVal.null, _ => rfl
  | PyVal.str _, _ => rfl
  | PyVal.bool _, _ => rfl
  | PyVal.int _, _ => rfl
  | PyVal.float finite _, h => by
      simp [jsonSafe] at h
      simp [hasBadFloat, h]
  | PyVal.list xs, h => by
      simp only [jsonSafe] at h
      simpa [hasBadFloat] using safe_no_badfloat_items xs h
  | PyVal.dict es, h => by
      simp only [jsonSafe] at h
      simpa [hasBadFloat] using safe_no_badfloat_entries es h
  | PyVal.other _, h => by simp [jsonSafe] at h

theorem safe_no_badfloat_items :
    ∀ xs, jsonSafeItems xs = true → hasBadFloatItems xs = false
  | PyList.nil, _ => rfl
  | PyList.cons x xs, h => by
      simp only [jsonSafeItems, Bool.and_eq_true] at h
      simp [hasBadFloatItems, safe_no_badfloat x h.1, safe_no_badfloat_items xs h.2]

theorem safe_no_badfloat_entries :
    ∀ es, jsonSafeEntries es = true → hasBadFloatEntries es = false
  | PyDict.nil, _ => rfl
  | PyDict.cons (PyKey.str s) v t, h => by
      simp only [jsonSafeEntries, Bool.and_eq_true] at h
      simp [hasBadFloatEntries, safe_no_badfloat v h.1, safe_no_badfloat_entries t h.2]
  | PyDict.cons (PyKey.int _) v t, h => by simp [jsonSafeEntries] at h
  | PyDict.cons (PyKey.other _) v t, h => by simp [jsonSafeEntries] at h

end

mutual

theorem safe_no_nonstrkey : ∀ v, jsonSafe v = true → hasNonStrKey v = false
  | PyVal.null, _ => rfl
  | PyVal.str _, _ => rfl
  | PyVal.bool _, _ => rfl
  | PyVal.int _, _ => rfl
  | PyVal.float _ _, _ => rfl
  | PyVal.list xs, h => by
      simp only [jsonSafe] at h
      simpa [hasNonStrKey] using safe_no_nonstrkey_items xs h
  | PyVal.dict es, h => by
      simp only [jsonSafe] at h
      simpa [hasNonStrKey] using safe_no_nonstrkey_entries es h
  | PyVal.other _, h => by simp [jsonSafe] at h

theorem safe_no_nonstrkey_items :
    ∀ xs, jsonSafeItems xs = true → hasNonStrKeyItems xs = false
  | PyList.nil, _ => rfl
  | PyList.cons x xs, h => by
      simp only [jsonSafeItems, Bool.and_eq_true] at h
      simp [hasNonStrKeyItems, safe_no_nonstrkey x h.1, safe_no_nonstrkey_items xs h.2]

theorem safe_no_nonstrkey_entries :
    ∀ es, jsonSafeEntries es = true → hasNonStrKeyEntries es = false
  | PyDict.nil, _ => rfl
  | PyDict.cons (PyKey.str s) v t, h => by
      simp only [jsonSafeEntries, Bool.and_eq_true] at h
      simp [hasNonStrKeyEntries, safe_no_nonstrkey v h.1, safe_no_nonstrkey_entries t h.2]
  | PyDict.cons (PyKey.int _) v t, h => by simp [jsonSafeEntries] at h
  | PyDict.cons (PyKey.other _) v t, h => by simp [jsonSafeEntries] at h

end

/-- Abstract POSIX path operations used by the runtime: `os.path.realpath`,
`os.path.relpath(p, os.sep)` and `os.path.join`.  They are kept abstract so
that theorems hold for every filesystem state. -/
structure OsOps where
  realpath : String → String
  relpathFromRoot : String → String
  joinPath : String → String → String

/-- Python's `str.startswith`, computed on the character lists so that it
evaluates by reduction. -/
def pyStartsWith (s pre : String) : Bool :=
  pre.data.isPrefixOf s.data

/-- `p == root or p.startswith(root + os.sep)` with the POSIX separator. -/
def underOrEq (root p : String) : Bool :=
  p == root || pyStartsWith p (root ++ "/")

/-- The permission error raised by `ensure_within_bundle`. -/
def escape_error : String := "Attempted to access path outside of bundle directory"

/-- The permission error raised by the capability checks. -/
def cap_error : String := "File system access requires declaring the \"fs\" capability"

/-- `ensure_within_bundle` (lines 101-116): the path resolver.  `hostRootEnv`
models `os.environ.get(HOST_ROOT_PREFIX_ENV)`; the Python truthiness test
`if host_root_raw:` makes an empty value behave like an absent one. -/
def ensure_within_bundle (os : OsOps) (hostRootEnv : Option String)
    (bundle_dir candidate : String) : Except String String :=
  let normalizedRoot := os.realpath bundle_dir
  let normalizedCandidate := os.realpath candidate
  if underOrEq normalizedRoot normalizedCandidate then Except.ok normalizedCandidate
  else
    match hostRootEnv with
    | some raw =>
        if raw == "" then Except.error escape_error
        else
          let hostRoot := os.realpath raw
          if underOrEq hostRoot normalizedCandidate then Except.ok normalizedCandidate
          else
            let relativeFromRoot := os.relpathFromRoot normalizedCandidate
            let translated := os.realpath (os.joinPath hostRoot relativeFromRoot)
            if underOrEq hostRoot translated then Except.ok translated
            else Except.error escape_error
    | Option.none => Except.error escape_error

/-- The resolver as the specification states it: accept and return
`realpath(C)` when it equals `realpath(R)` or is a separator-bounded
descendant; otherwise, with a configured host root `H = realpath(env)`,
accept `realpath(C)` under `H`, or else the translation
`realpath(H / relpath(realpath(C), sep))` when that lands under `H`;
otherwise fail with a permission error. -/
def resolver_spec (os : OsOps) (hostRootEnv : Option String)
    (bundle_dir candidate : String) : Except String String :=
  let C := os.realpath candidate
  let R := os.realpath bundle_dir
  if C == R || pyStartsWith C (R ++ "/") then Except.ok C
  else
    match hostRootEnv with
    | some raw =>
        if raw == "" then Except.error escape_error
        else
          let H := os.realpath raw
          if C == H || pyStartsWith C (H ++ "/") then Except.ok C
          else
            let Cp := os.realpath (os.joinPath H (os.relpathFromRoot C))
            if Cp == H || pyStartsWith Cp (H ++ "/") then Except.ok Cp
            else Except.error escape_error
    | Option.none => Except.error escape_error

/-- Path arguments of guarded primitives: an integer descriptor or a path. -/
inductive FSArg where
  | fd (n : Nat)
  | path (s : String)
deriving DecidableEq, Repr

/-- `normalize_path_argument` (lines 122-133).  Relative paths are joined to
the working directory and realpath-resolved before the containment check. -/
def normalize_path_argument (os : OsOps) (hostRootEnv : Option String)
    (cwd bundle_dir : String) (allow_fs : Bool) (value : FSArg) :
    Except String FSArg :=
  match value with
  | FSArg.fd n => if !allow_fs then Except.error cap_error else Except.ok (FSArg.fd n)
  | FSArg.path s =>
      if pyStartsWith s "/" then
        (ensure_within_bundle os hostRootEnv bundle_dir s).map FSArg.path
      else
        (ensure_within_bundle os hostRootEnv bundle_dir
          (os.realpath (os.joinPath cwd s))).map FSArg.path

/-- Observable outcome of a guarded primitive: either a `PermissionError`
raised to the caller, or the invocation of the original primitive with the
final arguments (the only way the filesystem can be touched). -/
inductive GuardOutcome (α : Type) where
  | permError (msg : String)
  | invoke (arg : α)
deriving DecidableEq, Repr

/-- `guarded_open` (lines 140-150): the wrapped `builtins.open`. -/
def guarded_open (os : OsOps) (hostRootEnv : Option String)
    (cwd bundle_dir : String) (allow_fs : Bool) (file : FSArg) :
    GuardOutcome FSArg :=
  match file with
  | FSArg.fd n =>
      if !allow_fs then GuardOutcome.permError cap_error
      else GuardOutcome.invoke (FSArg.fd n)
  | FSArg.path s =>
      match normalize_path_argument os hostRootEnv cwd bundle_dir allow_fs
          (FSArg.path s) with
      | Except.error e => GuardOutcome.permError e
      | Except.ok p =>
          if !allow_fs then GuardOutcome.permError cap_error
          else GuardOutcome.invoke p

/-- The positional-argument loop of the wrapper built by `wrap_function`
(lines 160-171): indexes in bounds are normalized in order, the first
failure propagating as the raised error. -/
def normalize_indexes (os : OsOps) (hostRootEnv : Option String)
    (cwd bundle_dir : String) :
    List Nat → List FSArg → Except String (List FSArg)
  | [], args => Except.ok args
  | i :: rest, args =>
      if i < args.length then
        match normalize_path_argument os hostRootEnv cwd bundle_dir true
            (args.getD i (FSArg.fd 0)) with
        | Except.error e => Except.error e
        | Except.ok v =>
            normalize_indexes os hostRootEnv cwd bundle_dir rest (args.set i v)
      else normalize_indexes os hostRootEnv cwd bundle_dir rest args

/-- Replace the value stored under `k` in a keyword-argument map. -/
def kwSet : List (String × FSArg) → String → FSArg → List (String × FSArg)
  | [], _, _ => []
  | (k0, v0) :: rest, k, v =>
      if k0 == k then (k0, v) :: rest else (k0, v0) :: kwSet rest k v

/-- The keyword-argument loop of the wrapper built by `wrap_function`:
listed names present in the map are normalized in order. -/
def normalize_kwnames (os : OsOps) (hostRootEnv : Option String)
    (cwd bundle_dir : String) :
    List String → List (String × FSArg) → Except String (List (String × FSArg))
  | [], kwargs => Except.ok kwargs
  | k :: rest, kwargs =>
      match kwargs.find? (fun p => p.1 == k) with
      | some p =>
          match normalize_path_argument os hostRootEnv cwd bundle_dir true p.2 with
          | Except.error e => Except.error e
          | Except.ok v =>
              normalize_kwnames os hostRootEnv cwd bundle_dir rest (kwSet kwargs k v)
      | Option.none => normalize_kwnames os hostRootEnv cwd bundle_dir rest kwargs

/-- The wrapper installed by `wrap_function` (lines 155-173) over the `os`
and `shutil` primitives: deny without `fs`, otherwise normalize the
path-bearing arguments and call the original. -/
def wrapped_call (os : OsOps) (hostRootEnv : Option String)
    (cwd bundle_dir : String) (allow_fs : Bool) (indexes : List Nat)
    (kwNames : List String) (args : List FSArg)
    (kwargs : List (String × FSArg)) :
    GuardOutcome (List FSArg × List (String × FSArg)) :=
  if !allow_fs then GuardOutcome.permError cap_error
  else
    match normalize_indexes os hostRootEnv cwd bundle_dir indexes args with
    | Except.error e => GuardOutcome.permError e
    | Except.ok newArgs =>
        match normalize_kwnames os hostRootEnv cwd bundle_dir kwNames kwargs with
        | Except.error e => GuardOutcome.permError e
        | Except.ok newKw => GuardOutcome.invoke (newArgs, newKw)

/-- The `path_methods` table (lines 175-195): wrapped `os` functions and
their guarded positional indexes. -/
def path_methods : List (String × List Nat) :=
  [("listdir", [0]), ("scandir", [0]), ("remove", [0]), ("unlink", [0]),
   ("rmdir", [0]), ("mkdir", [0]), ("makedirs", [0]), ("chdir", [0]),
   ("replace", [0, 1]), ("rename", [0, 1]), ("stat", [0]), ("lstat", [0]),
   ("readlink", [0]), ("symlink", [0, 1]), ("utime", [0]), ("chmod", [0]),
   ("chown", [0]), ("access", [0]), ("walk", [0])]

/-- The `shutil_methods` table (lines 200-208). -/
def shutil_methods : List (String × List Nat) :=
  [("copy", [0, 1]), ("copy2", [0, 1]), ("copyfile", [0, 1]),
   ("move", [0, 1]), ("copytree", [0, 1]), ("rmtree", [0]),
   ("make_archive", [1])]

/-- A guarded call degraded to a raised `PermissionError`. -/
def isPermErrorB {α : Type} : GuardOutcome α → Bool
  | GuardOutcome.permError _ => true
  | GuardOutcome.invoke _ => false

/-- `StartStep`: what the start sequence does with the entry file. -/
inductive StartStep where
  | loaded (entry : String)
  | fatal (err : String)
deriving DecidableEq, Repr

/-- Lines 546-547 and onwards of `execute_start`: realpath-resolve
`entryFile`, run it through `ensure_within_bundle`, and only on success
proceed to load the module at the resolved path. -/
def execute_start_entry (os : OsOps) (hostRootEnv : Option String)
    (bundle_dir entryFile : String) : StartStep :=
  let entry := os.realpath entryFile
  match ensure_within_bundle os hostRootEnv bundle_dir entry with
  | Except.ok _ => StartStep.loaded entry
  | Except.error e => StartStep.fatal e

/-- A concrete symlink-free filesystem view: `realpath` is the identity,
`relpath(p, sep)` strips the leading separator, `join` inserts one. -/
def osPlain : OsOps :=
  { realpath := fun s => s,
    relpathFromRoot := fun s => s.drop 1,
    joinPath := fun a b => a ++ "/" ++ b }

example : ensure_within_bundle osPlain Option.none "/b" "/b/x" = Except.ok "/b/x" := rfl

example : underOrEq "/b" "/b/x" = true := by decide

/-- C1: the path resolver accepts and returns `realpath(C)` when it equals
`realpath(R)` or is a separator-bounded descendant; otherwise, with a
configured host root, it accepts `realpath(C)` under the host root or the
host-root translation of `realpath(C)` when that lands under the host root;
in every remaining case it fails with a permission error.  Stated as a
refinement (`ensure_within_bundle` agrees with the resolver written from the
specification text) together with the containment guarantee for every
accepted path. -/
theorem C1_path_resolver :
    (∀ os hostRootEnv bundle_dir candidate,
      ensure_within_bundle os hostRootEnv bundle_dir candidate
        = resolver_spec os hostRootEnv bundle_dir candidate)
    ∧ (∀ os hostRootEnv bundle_dir candidate r,
        ensure_within_bundle os hostRootEnv bundle_dir candidate = Except.ok r →
        underOrEq (os.realpath bundle_dir) r = true
          ∨ ∃ raw, hostRootEnv = some raw ∧ raw ≠ ""
              ∧ underOrEq (os.realpath raw) r = true) := by
  constructor
  · intro os hostRootEnv bundle_dir candidate
    rfl
  · intro os hostRootEnv bundle_dir candidate r h
    cases hostRootEnv with
    | none =>
        simp only [ensure_within_bundle] at h
        split at h
        next hc =>
          injection h with h2
          subst h2
          exact Or.inl hc
        next hc => exact (Except.noConfusion h)
    | some raw =>
        simp only [ensure_within_bundle] at h
        split at h
        next hc =>
          injection h with h2
          subst h2
          exact Or.inl hc
        next hc =>
          split at h
          next hraw => exact (Except.noConfusion h)
          next hraw =>
            split at h
            next hh =>
              injection h with h2
              subst h2
              exact Or.inr ⟨raw, rfl, by simpa using hraw, hh⟩
            next hh =>
              split at h
              next ht =>
                injection h with h2
                subst h2
                exact Or.inr ⟨raw, rfl, by simpa using hraw, ht⟩
              next ht => exact (Except.noConfusion h)

/-- Witness for C1: a concrete accepted path inside the bundle root. -/
theorem C1_path_resolver_witness :
    underOrEq (osPlain.realpath "/b") "/b/x" = true
      ∨ ∃ raw, (Option.none : Option String) = some raw ∧ raw ≠ ""
          ∧ underOrEq (osPlain.realpath raw) "/b/x" = true :=
  C1_path_resolver.2 osPlain Option.none "/b" "/b/x" "/b/x" rfl

/-- C2: every guarded filesystem primitive called while the `fs` capability
is absent fails with a permission error; the underlying original primitive
(the only channel to the filesystem in the model) is never invoked, also for
integer descriptor arguments. -/
theorem C2_fs_guard_denies_without_capability :
    (∀ os hostRootEnv cwd bundle_dir file,
      isPermErrorB (guarded_open os hostRootEnv cwd bundle_dir false file) = true)
    ∧ (∀ os hostRootEnv cwd bundle_dir name indexes kwNames args kwargs,
        (name, indexes) ∈ path_methods ++ shutil_methods →
        wrapped_call os hostRootEnv cwd bundle_dir false indexes kwNames args
          kwargs = GuardOutcome.permError cap_error) := by
  constructor
  · intro os hostRootEnv cwd bundle_dir file
    cases file with
    | fd n => rfl
    | path s =>
        cases h : normalize_path_argument os hostRootEnv cwd bundle_dir false
            (FSArg.path s) with
        | ok p => simp [guarded_open, h, isPermErrorB]
        | error e => simp [guarded_open, h, isPermErrorB]
  · intro os hostRootEnv cwd bundle_dir name indexes kwNames args kwargs _
    rfl

/-- Witness for C2: the wrapped `os.listdir` denied without `fs`. -/
theorem C2_fs_guard_witness :
    wrapped_call osPlain Option.none "/b" "/b" false [0] [] [FSArg.path "x"] []
      = GuardOutcome.permError cap_error :=
  C2_fs_guard_denies_without_capability.2 osPlain Option.none "/b" "/b"
    "listdir" [0] [] [FSArg.path "x"] [] (by decide)

/-- C8 counterexample: with a host root configured, an entry file whose
realpath is neither the bundle directory nor a descendant of it still passes
the containment check (the host-root branch accepts it), so the runtime does
not fail fatally — refuting the claim that any entry file outside the bundle
directory is fatal. -/
theorem C8_counterexample :
    execute_start_entry osPlain (some "/host") "/work/b" "/host/entry.py"
      = StartStep.loaded "/host/entry.py"
    ∧ underOrEq (osPlain.realpath "/work/b") (osPlain.realpath "/host/entry.py")
        = false := by
  constructor
  · rfl
  · decide

/-- C8 (amended): the start sequence fails fatally, without loading the
entry module, exactly when the path resolver rejects `realpath(entryFile)`;
in particular, when no host root is configured, an entry file whose realpath
is neither the bundle directory nor a separator-bounded descendant of it is
fatal. -/
theorem C8_entry_containment_amended :
    (∀ os hostRootEnv bundle_dir entryFile err,
      execute_start_entry os hostRootEnv bundle_dir entryFile
          = StartStep.fatal err
        ↔ ensure_within_bundle os hostRootEnv bundle_dir
            (os.realpath entryFile) = Except.error err)
    ∧ (∀ os bundle_dir entryFile,
        (∀ s, os.realpath (os.realpath s) = os.realpath s) →
        underOrEq (os.realpath bundle_dir) (os.realpath entryFile) = false →
        execute_start_entry os Option.none bundle_dir entryFile
          = StartStep.fatal escape_error) := by
  constructor
  · intro os hostRootEnv bundle_dir entryFile err
    cases h : ensure_within_bundle os hostRootEnv bundle_dir
        (os.realpath entryFile) with
    | ok p => simp [execute_start_entry, h]
    | error e => simp [execute_start_entry, h]
  · intro os bundle_dir entryFile hidem hout
    simp [execute_start_entry, ensure_within_bundle, hidem, hout]

/-- Witness for C8 (amended): a concrete out-of-bundle entry file is fatal. -/
theorem C8_entry_containment_witness :
    execute_start_entry osPlain Option.none "/a" "/b/c"
      = StartStep.fatal escape_error :=
  C8_entry_containment_amended.2 osPlain "/a" "/b/c" (fun _ => rfl) (by decide)

/-- Lines 604-606 of `execute_start`: a `None` handler result becomes an
empty dict before sanitizing, and an `UNSUPPORTED` sanitizer outcome is
replaced by an empty dict. -/
def serialize_result (v : PyVal) : PyVal :=
  let input := match v with
    | PyVal.null => PyVal.dict PyDict.nil
    | w => w
  match to_json_value input with
  | some s => s
  | Option.none => PyVal.dict PyDict.nil

/-- C3: for every handler return value, the emitted `result` payload
contains no non-finite float and no mapping entry under a non-string key,
survives the IPC JSON round trip unchanged (so the emitted payload is
exactly `serialize_result v`), and a `None` top-level result is normalized
to an empty object. -/
theorem C3_result_payload_sanitized :
    (∀ v, hasBadFloat (serialize_result v) = false
      ∧ hasNonStrKey (serialize_result v) = false
      ∧ json_roundtrip (serialize_result v) = Except.ok (serialize_result v))
    ∧ serialize_result PyVal.null = PyVal.dict PyDict.nil := by
  constructor
  · intro v
    have hsafe : jsonSafe (serialize_result v) = true := by
      unfold serialize_result
      cases v with
      | null => rfl
      | str s => rfl
      | bool b => rfl
      | int n => rfl
      | float finite payload =>
          cases finite with
          | false => rfl
          | true => rfl
      | list xs =>
          simpa [to_json_value, jsonSafe] using tjv_safe_items xs
      | dict es =>
          simpa [to_json_value, jsonSafe] using tjv_safe_entries es
      | other t => rfl
    exact ⟨safe_no_badfloat _ hsafe, safe_no_nonstrkey _ hsafe,
      safe_roundtrip _ hsafe⟩
  · rfl

/-- C9: the result sanitizer is idempotent — applying `to_json_value` to
its own (supported) output returns that output unchanged. -/
theorem C9_sanitizer_idempotent :
    ∀ v, (to_json_value v).bind to_json_value = to_json_value v := by
  intro v
  cases h : to_json_value v with
  | none => rfl
  | some w =>
      simp [Option.bind, safe_fix w (tjv_safe v w h)]

/-- Handler-supplied update dictionaries (string-keyed, as typed in the
source: `Dict[str, Any]`). -/
abbrev Updates : Type := List (String × PyVal)

/-- Python `"k" in updates`. -/
def hasKey (u : Updates) (k : String) : Bool :=
  (List.any u (fun p => p.1 == k))

/-- Python `updates.get("k")` (only consulted under a `hasKey` guard). -/
def getKey (u : Updates) (k : String) : PyVal :=
  match List.find? (fun p => p.1 == k) u with
  | some p => p.2
  | Option.none => PyVal.null

/-- One whitelisted key of `normalize_updates` whose value runs through
`to_json_value` and is dropped when unsupported (`parameters`, `metrics`,
`context`). -/
def upd_sanitized_entry (u : Updates) (k : String) : Updates :=
  if hasKey u k then
    match to_json_value (getKey u k) with
    | some c => [(k, c)]
    | Option.none => []
  else []

/-- One whitelisted key of `normalize_updates` copied verbatim
(`logsUrl`, `timeoutMs`). -/
def upd_raw_entry (u : Updates) (k : String) : Updates :=
  if hasKey u k then [(k, getKey u k)] else []

/-- `normalize_updates` (lines 439-457): the result dictionary receives the
whitelisted keys in source order; `parameters`, `metrics` and `context` are
sanitized, `logsUrl` and `timeoutMs` are copied as-is. -/
def normalize_updates (u : Updates) : Updates :=
  upd_sanitized_entry u "parameters" ++ upd_raw_entry u "logsUrl"
    ++ upd_sanitized_entry u "metrics" ++ upd_sanitized_entry u "context"
    ++ upd_raw_entry u "timeoutMs"

/-- View an update dictionary as a Python dict value. -/
def updatesToDict : Updates → PyDict
  | [] => PyDict.nil
  | (k, v) :: rest => PyDict.cons (PyKey.str k) v (updatesToDict rest)

/-- The `updates` object sent in the `update-request` message
(`JobContext.update`, lines 406-413): `sanitize_for_ipc(normalize_updates
(updates))`. -/
def update_request_updates (u : Updates) : Except String PyVal :=
  json_roundtrip (PyVal.dict (updatesToDict (normalize_updates u)))

/-- Lookup in an update dictionary. -/
def lookupUpd (u : Updates) (k : String) : Option PyVal :=
  (List.find? (fun p => p.1 == k) u).map (fun p => p.2)

/-- C6 counterexample: a `logsUrl` value that is a non-finite float survives
`normalize_updates` and the IPC round trip untouched, so the sent `updates`
is not sanitized through the result sanitizer, refuting the claim that
every surviving value is so sanitized. -/
theorem C6_counterexample :
    update_request_updates [("logsUrl", PyVal.float false 0)]
      = Except.ok (PyVal.dict (PyDict.cons (PyKey.str "logsUrl")
          (PyVal.float false 0) PyDict.nil))
    ∧ hasBadFloat (PyVal.dict (PyDict.cons (PyKey.str "logsUrl")
        (PyVal.float false 0) PyDict.nil)) = true := by
  constructor
  · rfl
  · rfl

theorem lookupUpd_append (a b : Updates) (k : String) :
    lookupUpd (a ++ b) k
      = (match lookupUpd a k with
         | some v => some v
         | Option.none => lookupUpd b k) := by
  induction a with
  | nil => rfl
  | cons p rest ih =>
      cases hp : (p.1 == k) with
      | true => simp [lookupUpd, List.find?_cons, hp]
      | false => simpa [lookupUpd, List.find?_cons, hp] using ih

theorem lookupUpd_sanitized_self (u : Updates) (k : String) :
    lookupUpd (upd_sanitized_entry u k) k
      = (if hasKey u k then to_json_value (getKey u k) else Option.none) := by
  unfold upd_sanitized_entry
  by_cases h : hasKey u k
  · cases hv : to_json_value (getKey u k) with
    | some c => simp [lookupUpd, List.find?_cons, h, hv]
    | none => simp [lookupUpd, h, hv]
  · simp [lookupUpd, h]

theorem lookupUpd_raw_self (u : Updates) (k : String) :
    lookupUpd (upd_raw_entry u k) k
      = (if hasKey u k then some (getKey u k) else Option.none) := by
  unfold upd_raw_entry
  by_cases h : hasKey u k
  · simp [lookupUpd, List.find?_cons, h]
  · simp [lookupUpd, h]

theorem lookupUpd_sanitized_other (u : Updates) (k j : String) (hne : j ≠ k) :
    lookupUpd (upd_sanitized_entry u k) j = Option.none := by
  have hkj : (k == j) = false := by
    simpa using fun he => hne he.symm
  unfold upd_sanitized_entry
  by_cases h : hasKey u k
  · cases hv : to_json_value (getKey u k) with
    | some c => simp [lookupUpd, List.find?_cons, h, hv, hkj]
    | none => simp [lookupUpd, h, hv]
  · simp [lookupUpd, h]

theorem lookupUpd_raw_other (u : Updates) (k j : String) (hne : j ≠ k) :
    lookupUpd (upd_raw_entry u k) j = Option.none := by
  have hkj : (k == j) = false := by
    simpa using fun he => hne he.symm
  unfold upd_raw_entry
  by_cases h : hasKey u k
  · simp [lookupUpd, List.find?_cons, h, hkj]
  · simp [lookupUpd, h]

/-- C6 (amended): the `updates` dictionary built for the `update-request`
message contains only the whitelisted keys; `parameters`, `metrics` and
`context` are present when the input has them and their value sanitizes
(carrying the sanitized value, and dropped when the sanitizer reports it
unsupported), while `logsUrl` and `timeoutMs` are copied verbatim without
sanitization; every non-whitelisted key is absent. -/
theorem C6_update_whitelist_amended :
    ∀ u : Updates,
      lookupUpd (normalize_updates u) "parameters"
        = (if hasKey u "parameters" then to_json_value (getKey u "parameters")
           else Option.none)
      ∧ lookupUpd (normalize_updates u) "logsUrl"
        = (if hasKey u "logsUrl" then some (getKey u "logsUrl") else Option.none)
      ∧ lookupUpd (normalize_updates u) "metrics"
        = (if hasKey u "metrics" then to_json_value (getKey u "metrics")
           else Option.none)
      ∧ lookupUpd (normalize_updates u) "context"
        = (if hasKey u "context" then to_json_value (getKey u "context")
           else Option.none)
      ∧ lookupUpd (normalize_updates u) "timeoutMs"
        = (if hasKey u "timeoutMs" then some (getKey u "timeoutMs")
           else Option.none)
      ∧ (∀ j, j ≠ "parameters" → j ≠ "logsUrl" → j ≠ "metrics" →
          j ≠ "context" → j ≠ "timeoutMs" →
          lookupUpd (normalize_updates u) j = Option.none) := by
  intro u
  have hmp : ∀ j, j ≠ "parameters" →
      lookupUpd (upd_sanitized_entry u "parameters") j = Option.none :=
    fun j hj => lookupUpd_sanitized_other u "parameters" j hj
  have hml : ∀ j, j ≠ "logsUrl" →
      lookupUpd (upd_raw_entry u "logsUrl") j = Option.none :=
    fun j hj => lookupUpd_raw_other u "logsUrl" j hj
  have hmm : ∀ j, j ≠ "metrics" →
      lookupUpd (upd_sanitized_entry u "metrics") j = Option.none :=
    fun j hj => lookupUpd_sanitized_other u "metrics" j hj
  have hmc : ∀ j, j ≠ "context" →
      lookupUpd (upd_sanitized_entry u "context") j = Option.none :=
    fun j hj => lookupUpd_sanitized_other u "context" j hj
  have hmt : ∀ j, j ≠ "timeoutMs" →
      lookupUpd (upd_raw_entry u "timeoutMs") j = Option.none :=
    fun j hj => lookupUpd_raw_other u "timeoutMs" j hj
  refine ⟨?_, ?_, ?_, ?_, ?_, ?_⟩
  · simp [normalize_updates, lookupUpd_append, lookupUpd_sanitized_self,
      hml "parameters" (by decide), hmm "parameters" (by decide),
      hmc "parameters" (by decide), hmt "parameters" (by decide)]
    by_cases hk : hasKey u "parameters" <;>
      simp [hk] <;> cases to_json_value (getKey u "parameters") <;> simp
  · simp [normalize_updates, lookupUpd_append, lookupUpd_raw_self,
      hmp "logsUrl" (by decide), hmm "logsUrl" (by decide),
      hmc "logsUrl" (by decide), hmt "logsUrl" (by decide)]
    by_cases hk : hasKey u "logsUrl" <;> simp [hk]
  · simp [normalize_updates, lookupUpd_append, lookupUpd_sanitized_self,
      hmp "metrics" (by decide), hml "metrics" (by decide),
      hmc "metrics" (by decide), hmt "metrics" (by decide)]
    by_cases hk : hasKey u "metrics" <;>
      simp [hk] <;> cases to_json_value (getKey u "metrics") <;> simp
  · simp [normalize_updates, lookupUpd_append, lookupUpd_sanitized_self,
      hmp "context" (by decide), hml "context" (by decide),
      hmm "context" (by decide), hmt "context" (by decide)]
    by_cases hk : hasKey u "context" <;>
      simp [hk] <;> cases to_json_value (getKey u "context") <;> simp
  · simp [normalize_updates, lookupUpd_append, lookupUpd_raw_self,
      hmp "timeoutMs" (by decide), hml "timeoutMs" (by decide),
      hmm "timeoutMs" (by decide), hmc "timeoutMs" (by decide)]
  · intro j h1 h2 h3 h4 h5
    simp [normalize_updates, lookupUpd_append,
      hmp _ h1, hml _ h2, hmm _ h3, hmc _ h4, hmt _ h5]

/-- Witness for C6 (amended): a non-whitelisted key is absent from the
normalized updates. -/
theorem C6_update_whitelist_witness :
    lookupUpd (normalize_updates [("parameters", PyVal.int 1),
      ("other", PyVal.int 2)]) "other" = Option.none :=
  (C6_update_whitelist_amended [("parameters", PyVal.int 1),
    ("other", PyVal.int 2)]).2.2.2.2.2 "other" (by decide) (by decide)
    (by decide) (by decide) (by decide)

/-- Kinds of outbound requests held in the pending table. -/
inductive ReqKind where
  | update
  | resolveSecret
deriving DecidableEq, Repr

/-- One entry of `pending_requests`: the request id, the request kind, and
whether the waiter future is already done (e.g. cancelled by the scheduler
while the handler task awaited it). -/
structure PendingEntry where
  id : String
  kind : ReqKind
  done : Bool
deriving DecidableEq, Repr

/-- Messages the child writes to stdout, restricted to the fields the
lifecycle claims are about. -/
inductive OutMsg where
  | log (level : String) (message : String) (meta : PyVal)
  | errorMsg (message : String) (stack : Option String)
  | resultMsg (result : PyVal) (durationMs : Nat) (resourceUsage : Option PyVal)
deriving DecidableEq, Repr

/-- Python dict `d[k] = v` on string keys: replace in place or append. -/
def dictSetStr : PyDict → String → PyVal → PyDict
  | PyDict.nil, k, v => PyDict.cons (PyKey.str k) v PyDict.nil
  | PyDict.cons k0 v0 t, k, v =>
      if k0 == PyKey.str k then PyDict.cons k0 v t
      else PyDict.cons k0 v0 (dictSetStr t k v)

/-- Python dict `d.setdefault(k, v)` on string keys. -/
def dictSetdefault (d : PyDict) (k : String) (v : PyVal) : PyDict :=
  match hasStrKey d k with
  | true => d
  | false => dictAppend d k v
where
  /-- membership test for a string key -/
  hasStrKey : PyDict → String → Bool
    | PyDict.nil, _ => false
    | PyDict.cons k0 _ t, k => k0 == PyKey.str k || hasStrKey t k
  /-- append a fresh binding at the end, as CPython insertion order does -/
  dictAppend : PyDict → String → PyVal → PyDict
    | PyDict.nil, k, v => PyDict.cons (PyKey.str k) v PyDict.nil
    | PyDict.cons k0 v0 t, k, v => PyDict.cons k0 v0 (dictAppend t k v)

/-- Python truthiness of a dict: empty dicts are falsy. -/
def dictIsEmpty : PyDict → Bool
  | PyDict.nil => true
  | PyDict.cons _ _ _ => false

/-- `{"sandboxTaskId": task_id}`. -/
def taskOnlyMeta (taskId : String) : PyVal :=
  PyVal.dict (PyDict.cons (PyKey.str "sandboxTaskId") (PyVal.str taskId)
    PyDict.nil)

/-- `normalize_meta` (lines 369-386): serialize the metadata through
`sanitize_for_ipc`; a dict gains `sandboxTaskId`; a non-dict value falls
back to the task-only dict; a serialization failure additionally emits a
warn log built from the error text. -/
def normalize_meta (taskId : String) (meta : Option PyVal) :
    Option PyVal × List OutMsg :=
  match meta with
  | Option.none => (Option.none, [])
  | some m =>
      match json_roundtrip m with
      | Except.ok (PyVal.dict es) =>
          (some (PyVal.dict (dictSetStr es "sandboxTaskId" (PyVal.str taskId))),
           [])
      | Except.ok _ => (some (taskOnlyMeta taskId), [])
      | Except.error err =>
          (some (taskOnlyMeta taskId),
           [OutMsg.log "warn" "Failed to serialize log metadata"
             (PyVal.dict (PyDict.cons (PyKey.str "sandboxTaskId")
               (PyVal.str taskId)
               (PyDict.cons (PyKey.str "error") (PyVal.str err) PyDict.nil)))])

/-- The local `log` helper of `execute_start` (lines 594-597):
`normalize_meta(...) or {"sandboxTaskId": task_id}`, then
`setdefault("sandboxTaskId", ...)`, then one log message. -/
def emit_log (taskId level message : String) (meta : Option PyVal) :
    List OutMsg :=
  let pair := normalize_meta taskId meta
  let normalized := match pair.1 with
    | some (PyVal.dict es) =>
        if dictIsEmpty es then taskOnlyMeta taskId else PyVal.dict es
    | some v => v
    | Option.none => taskOnlyMeta taskId
  let withTask := match normalized with
    | PyVal.dict es => PyVal.dict (dictSetdefault es "sandboxTaskId"
        (PyVal.str taskId))
    | v => v
  pair.2 ++ [OutMsg.log level message withTask]

/-- How the handler invocation ended, as observed by the `try` block of
`execute_start` (lines 600-632). -/
inductive HandlerOutcome where
  | ok (value : PyVal)
  | cancelled
  | raised (tb : String)
deriving DecidableEq, Repr

/-- Observable effect of the tail of `execute_start`: stdout messages, the
exceptions set on waiters of pending requests, and the pending table left
behind. -/
structure FinishOut where
  messages : List OutMsg
  failures : List (String × String)
  pendingAfter : List PendingEntry
deriving DecidableEq, Repr

/-- `message = cancel_reason or "Sandbox execution cancelled"`: Python `or`
falls back when the captured reason is `None` or empty. -/
def fallback_cancel_message (reason : Option String) : String :=
  match reason with
  | some r => if r == "" then "Sandbox execution cancelled" else r
  | Option.none => "Sandbox execution cancelled"

/-- The drain loop over `list(pending_requests.items())`: every waiter not
already done is failed with the given message. -/
def drain_failures (pending : List PendingEntry) (msg : String) :
    List (String × String) :=
  (pending.filter (fun e => !e.done)).map (fun e => (e.id, msg))

/-- The `except Exception` branch of `execute_start` (lines 624-632): an
error-level log carrying the traceback, the drain with "Handler failed",
and the terminal error message. -/
def raised_finish (taskId : String) (pending : List PendingEntry)
    (tb : String) : FinishOut :=
  { messages := emit_log taskId "error" "Handler threw error"
      (some (PyVal.dict (PyDict.cons (PyKey.str "error") (PyVal.str tb)
        PyDict.nil)))
      ++ [OutMsg.errorMsg "Handler threw error" (some tb)],
    failures := drain_failures pending "Handler failed",
    pendingAfter := [] }

/-- The tail of `execute_start` (lines 599-632), from the handler outcome to
the emitted messages.  In the success branch a `sanitize_for_ipc` failure
would raise inside the `try` and land in the `except Exception` branch; the
traceback text is modelled by the propagated error string. -/
def execute_finish (taskId : String) (cancelReason : Option String)
    (durationMs : Nat) (resourceUsage : Option PyVal)
    (pending : List PendingEntry) (outcome : HandlerOutcome) : FinishOut :=
  match outcome with
  | HandlerOutcome.ok v =>
      match json_roundtrip (serialize_result v) with
      | Except.ok s =>
          { messages := [OutMsg.resultMsg s durationMs resourceUsage],
            failures := [],
            pendingAfter := pending }
      | Except.error e => raised_finish taskId pending e
  | HandlerOutcome.cancelled =>
      let msg := fallback_cancel_message cancelReason
      { messages := [OutMsg.errorMsg msg Option.none],
        failures := drain_failures pending msg,
        pendingAfter := [] }
  | HandlerOutcome.raised tb => raised_finish taskId pending tb

/-- C4 counterexample: with a captured cancel reason that is the empty
string (a supplied reason), the emitted error message is the fallback
"Sandbox execution cancelled", not the captured reason — Python's
`cancel_reason or ...` falls back on every falsy reason, refuting the claim
that the message equals the captured reason whenever one was supplied. -/
theorem C4_counterexample :
    (execute_finish "task" (some "") 0 Option.none []
        HandlerOutcome.cancelled).messages
      = [OutMsg.errorMsg "Sandbox execution cancelled" Option.none]
    ∧ (execute_finish "task" (some "") 0 Option.none []
        HandlerOutcome.cancelled).messages
      ≠ [OutMsg.errorMsg "" Option.none] := by
  constructor
  · rfl
  · decide

/-- C4 (amended): on cancellation the runtime emits exactly one terminal
message — an error whose message is the captured cancel reason, falling
back to "Sandbox execution cancelled" when the reason is absent or empty —
emits no `result`, clears the pending table, and fails the waiter of every
pending request whose future is not already done with that same message. -/
theorem C4_cancellation_amended :
    ∀ taskId reason durationMs resourceUsage pending,
      (execute_finish taskId reason durationMs resourceUsage pending
          HandlerOutcome.cancelled).messages
        = [OutMsg.errorMsg (fallback_cancel_message reason) Option.none]
      ∧ (execute_finish taskId reason durationMs resourceUsage pending
          HandlerOutcome.cancelled).pendingAfter = []
      ∧ ∀ e, e ∈ pending → e.done = false →
          (e.id, fallback_cancel_message reason)
            ∈ (execute_finish taskId reason durationMs resourceUsage pending
                HandlerOutcome.cancelled).failures := by
  intro taskId reason durationMs resourceUsage pending
  refine ⟨rfl, rfl, ?_⟩
  intro e he hd
  simp only [execute_finish, drain_failures]
  exact List.mem_map.mpr ⟨e, List.mem_filter.mpr ⟨he, by simp [hd]⟩, rfl⟩

/-- Witness for C4 (amended): a concrete pending request is failed with the
fallback message. -/
theorem C4_cancellation_witness :
    ("a", fallback_cancel_message Option.none)
      ∈ (execute_finish "t" Option.none 0 Option.none
          [⟨"a", ReqKind.update, false⟩] HandlerOutcome.cancelled).failures :=
  (C4_cancellation_amended "t" Option.none 0 Option.none
    [⟨"a", ReqKind.update, false⟩]).2.2 ⟨"a", ReqKind.update, false⟩
    (by simp) rfl

/-- C5 counterexample: on a handler exception the log message the runtime
emits before the terminal error carries level "error", not level "info" —
refuting the claim that an info-level log is emitted. -/
theorem C5_counterexample :
    (execute_finish "task" Option.none 0 Option.none []
        (HandlerOutcome.raised "tb")).messages
      = [OutMsg.log "error" "Handler threw error"
          (PyVal.dict (PyDict.cons (PyKey.str "error") (PyVal.str "tb")
            (PyDict.cons (PyKey.str "sandboxTaskId") (PyVal.str "task")
              PyDict.nil))),
         OutMsg.errorMsg "Handler threw error" (some "tb")]
    ∧ ("error" : String) ≠ "info" := by
  constructor
  · rfl
  · decide

/-- C5 (amended): on a handler exception the runtime emits an error-level
log message whose metadata carries the formatted traceback (plus the task
id), then a terminal error with message exactly "Handler threw error" and
the traceback in its stack, clears the pending table, and fails the waiter
of every pending request whose future is not already done with
"Handler failed". -/
theorem C5_handler_exception_amended :
    ∀ taskId reason durationMs resourceUsage pending tb,
      (execute_finish taskId reason durationMs resourceUsage pending
          (HandlerOutcome.raised tb)).messages
        = [OutMsg.log "error" "Handler threw error"
            (PyVal.dict (PyDict.cons (PyKey.str "error") (PyVal.str tb)
              (PyDict.cons (PyKey.str "sandboxTaskId") (PyVal.str taskId)
                PyDict.nil))),
           OutMsg.errorMsg "Handler threw error" (some tb)]
      ∧ (execute_finish taskId reason durationMs resourceUsage pending
          (HandlerOutcome.raised tb)).pendingAfter = []
      ∧ ∀ e, e ∈ pending → e.done = false →
          (e.id, "Handler failed")
            ∈ (execute_finish taskId reason durationMs resourceUsage pending
                (HandlerOutcome.raised tb)).failures := by
  intro taskId reason durationMs resourceUsage pending tb
  refine ⟨rfl, rfl, ?_⟩
  intro e he hd
  simp only [execute_finish, raised_finish, drain_failures]
  exact List.mem_map.mpr ⟨e, List.mem_filter.mpr ⟨he, by simp [hd]⟩, rfl⟩

/-- Witness for C5 (amended): a concrete pending request is failed with
"Handler failed". -/
theorem C5_handler_exception_witness :
    ("a", "Handler failed")
      ∈ (execute_finish "t" Option.none 0 Option.none
          [⟨"a", ReqKind.update, false⟩] (HandlerOutcome.raised "tb")).failures :=
  (C5_handler_exception_amended "t" Option.none 0 Option.none
    [⟨"a", ReqKind.update, false⟩] "tb").2.2 ⟨"a", ReqKind.update, false⟩
    (by simp) rfl

/-- How a waiter future was completed. -/
inductive CompletionKind where
  | resolved (value : Option PyVal)
  | failed (errMsg : String)
deriving DecidableEq, Repr

/-- A ghost record of one waiter completion (`set_result`/`set_exception`). -/
structure Completion where
  id : String
  kind : CompletionKind
deriving DecidableEq, Repr

/-- Inbound parent messages consumed by `handle_parent_message`.  Response
messages carry an optional `requestId` plus the optional `run`/`value`/
`error` fields `message.get(...)` can observe. -/
inductive ParentMsg where
  | updateResponse (requestId : Option String) (ok : Bool)
      (run : Option PyVal) (value : Option PyVal) (error : Option String)
  | resolveSecretResponse (requestId : Option String) (ok : Bool)
      (value : Option PyVal) (error : Option String)
  | cancel (reason : Option String)
  | otherMsg
deriving DecidableEq, Repr

/-- Dispatcher state: the pending-request table, the captured cancel
reason, and the ghost log of waiter completions. -/
structure DispatchState where
  pending : List PendingEntry
  cancelReason : Option String
  completions : List Completion
deriving DecidableEq, Repr

/-- `pending_requests.pop(request_id, None)` over the table: remove and
return the first entry with the given id. -/
def popById : List PendingEntry → String → Option (PendingEntry × List PendingEntry)
  | [], _ => Option.none
  | e :: rest, r =>
      if e.id == r then some (e, rest)
      else
        match popById rest r with
        | some (f, rest2) => some (f, e :: rest2)
        | Option.none => Option.none

/-- `message.get("error") or default`: Python `or` falls back on `None` and
on the empty string. -/
def error_or_default (err : Option String) (dflt : String) : String :=
  match err with
  | some e => if e == "" then dflt else e
  | Option.none => dflt

/-- Complete a popped waiter unless its future is already done
(`if not future.done()`). -/
def completeWaiter (s : DispatchState) (rest : List PendingEntry)
    (entry : PendingEntry) (k : CompletionKind) : DispatchState :=
  if entry.done then { s with pending := rest }
  else
    { s with
      pending := rest,
      completions := s.completions ++ [{ id := entry.id, kind := k }] }

/-- `handle_parent_message` (lines 485-519): response correlation by
request id and cancel-reason capture.  For `update-response` the success
value is `run` for update-kind waiters and `value` otherwise; unknown ids
leave everything unchanged. -/
def handle_parent_message (s : DispatchState) (m : ParentMsg) : DispatchState :=
  match m with
  | ParentMsg.updateResponse rid ok run value err =>
      match rid with
      | Option.none => s
      | some r =>
          match popById s.pending r with
          | Option.none => s
          | some (entry, rest) =>
              if ok then
                completeWaiter s rest entry (CompletionKind.resolved
                  (match entry.kind with
                   | ReqKind.update => run
                   | ReqKind.resolveSecret => value))
              else
                completeWaiter s rest entry (CompletionKind.failed
                  (error_or_default err "Request failed"))
  | ParentMsg.resolveSecretResponse rid ok value err =>
      match rid with
      | Option.none => s
      | some r =>
          match popById s.pending r with
          | Option.none => s
          | some (entry, rest) =>
              if ok then
                completeWaiter s rest entry (CompletionKind.resolved value)
              else
                completeWaiter s rest entry (CompletionKind.failed
                  (error_or_default err "Secret resolution failed"))
  | ParentMsg.cancel reason => { s with cancelReason := reason }
  | ParentMsg.otherMsg => s

/-- Events that touch the pending-request table during a run: a request
send (`pending_requests[request_id] = (kind, future)` with a fresh future),
an inbound message, a future becoming done externally (the scheduler
cancelling a future the cancelled handler task awaited), and the drain on
handler termination. -/
inductive DEvent where
  | send (id : String) (kind : ReqKind)
  | recv (m : ParentMsg)
  | markDone (id : String)
  | drain (errMsg : String)
deriving DecidableEq, Repr

/-- Mark the future of the entry with the given id as done. -/
def markDoneIn (pending : List PendingEntry) (id : String) : List PendingEntry :=
  pending.map (fun e => if e.id == id then { e with done := true } else e)

/-- One step of the pending-table state machine. -/
def dstep (s : DispatchState) (e : DEvent) : DispatchState :=
  match e with
  | DEvent.send id kind =>
      { s with pending := s.pending ++ [{ id := id, kind := kind, done := false }] }
  | DEvent.recv m => handle_parent_message s m
  | DEvent.markDone id => { s with pending := markDoneIn s.pending id }
  | DEvent.drain msg =>
      { s with
        pending := [],
        completions := s.completions
          ++ (s.pending.filter (fun e => !e.done)).map
              (fun e => { id := e.id, kind := CompletionKind.failed msg }) }

/-- Run a list of events. -/
def drun (s : DispatchState) : List DEvent → DispatchState
  | [] => s
  | e :: evs => drun (dstep s e) evs

/-- The empty initial dispatcher state. -/
def initState : DispatchState :=
  { pending := [], cancelReason := Option.none, completions := [] }

/-- Number of `send` events in a trace carrying the given id. -/
def sendCount (evs : List DEvent) (id : String) : Nat :=
  evs.countP (fun e => match e with
    | DEvent.send i _ => i == id
    | _ => false)

/-- Number of recorded completions for the given id. -/
def complCount (s : DispatchState) (id : String) : Nat :=
  s.completions.countP (fun c => c.id == id)

/-- Number of pending entries for the given id. -/
def pendCount (s : DispatchState) (id : String) : Nat :=
  s.pending.countP (fun e => e.id == id)

/-- The given request id is present in the pending table. -/
def ridInPending (pending : List PendingEntry) (rid : Option String) : Bool :=
  match rid with
  | Option.none => false
  | some r => pending.any (fun e => e.id == r)

theorem popById_perm :
    ∀ (l : List PendingEntry) (r : String) (e : PendingEntry)
      (rest : List PendingEntry),
      popById l r = some (e, rest) → e.id = r ∧ l.Perm (e :: rest) := by
  intro l
  induction l with
  | nil => intro r e rest h; simp [popById] at h
  | cons x xs ih =>
      intro r e rest h
      simp only [popById] at h
      split at h
      · next hx =>
          injection h with h2
          injection h2 with he hrest
          subst he
          subst hrest
          exact ⟨by simpa using hx, List.Perm.refl _⟩
      · next hx =>
          cases hpop : popById xs r with
          | none => rw [hpop] at h; exact absurd h (by simp)
          | some pr =>
              obtain ⟨f, rest2⟩ := pr
              rw [hpop] at h
              injection h with h2
              injection h2 with he hrest
              subst he
              subst hrest
              obtain ⟨hid, hperm⟩ := ih r f rest2 hpop
              refine ⟨hid, ?_⟩
              exact (hperm.cons x).trans (List.Perm.swap f x rest2)

theorem popById_eq_none :
    ∀ (l : List PendingEntry) (r : String),
      l.any (fun e => e.id == r) = false → popById l r = Option.none := by
  intro l
  induction l with
  | nil => intro r _; rfl
  | cons x xs ih =>
      intro r h
      simp only [List.any_cons, Bool.or_eq_false_iff] at h
      simp only [popById, h.1, Bool.false_eq_true, if_false]
      rw [ih r h.2]

theorem completeWaiter_compl_le (s : DispatchState) (rest : List PendingEntry)
    (entry : PendingEntry) (k : CompletionKind) (id : String) :
    complCount (completeWaiter s rest entry k) id
      ≤ complCount s id + (if entry.id == id then 1 else 0) := by
  unfold completeWaiter complCount
  by_cases hd : entry.done
  · simp [hd]
  · simp only [hd, Bool.false_eq_true, if_false, List.countP_append,
      List.countP_cons, List.countP_nil]
    split <;> omega

theorem completeWaiter_pend (s : DispatchState) (rest : List PendingEntry)
    (entry : PendingEntry) (k : CompletionKind) (id : String) :
    pendCount (completeWaiter s rest entry k) id
      = rest.countP (fun e => e.id == id) := by
  unfold completeWaiter pendCount
  by_cases hd : entry.done <;> simp [hd]

theorem recv_count_bound (s : DispatchState) (m : ParentMsg) (id : String) :
    complCount (handle_parent_message s m) id
        + pendCount (handle_parent_message s m) id
      ≤ complCount s id + pendCount s id := by
  cases m with
  | cancel reason => simp [handle_parent_message, complCount, pendCount]
  | otherMsg => simp [handle_parent_message]
  | updateResponse rid ok run value err =>
      cases rid with
      | none => simp [handle_parent_message]
      | some r =>
          cases hpop : popById s.pending r with
          | none => simp [handle_parent_message, hpop]
          | some pr =>
              obtain ⟨entry, rest⟩ := pr
              have hperm := (popById_perm s.pending r entry rest hpop).2
              have hcount : pendCount s id
                  = rest.countP (fun e => e.id == id)
                    + (if entry.id == id then 1 else 0) := by
                unfold pendCount
                rw [hperm.countP_eq]
                simp [List.countP_cons]
              simp only [handle_parent_message, hpop]
              cases ok with
              | true =>
                  rw [if_pos rfl]
                  have h1 := completeWaiter_compl_le s rest entry
                    (CompletionKind.resolved
                      (match entry.kind with
                       | ReqKind.update => run
                       | ReqKind.resolveSecret => value)) id
                  have h2 := completeWaiter_pend s rest entry
                    (CompletionKind.resolved
                      (match entry.kind with
                       | ReqKind.update => run
                       | ReqKind.resolveSecret => value)) id
                  omega
              | false =>
                  rw [if_neg (by simp)]
                  have h1 := completeWaiter_compl_le s rest entry
                    (CompletionKind.failed (error_or_default err "Request failed")) id
                  have h2 := completeWaiter_pend s rest entry
                    (CompletionKind.failed (error_or_default err "Request failed")) id
                  omega
  | resolveSecretResponse rid ok value err =>
      cases rid with
      | none => simp [handle_parent_message]
      | some r =>
          cases hpop : popById s.pending r with
          | none => simp [handle_parent_message, hpop]
          | some pr =>
              obtain ⟨entry, rest⟩ := pr
              have hperm := (popById_perm s.pending r entry rest hpop).2
              have hcount : pendCount s id
                  = rest.countP (fun e => e.id == id)
                    + (if entry.id == id then 1 else 0) := by
                unfold pendCount
                rw [hperm.countP_eq]
                simp [List.countP_cons]
              simp only [handle_parent_message, hpop]
              cases ok with
              | true =>
                  rw [if_pos rfl]
                  have h1 := completeWaiter_compl_le s rest entry
                    (CompletionKind.resolved value) id
                  have h2 := completeWaiter_pend s rest entry
                    (CompletionKind.resolved value) id
                  omega
              | false =>
                  rw [if_neg (by simp)]
                  have h1 := completeWaiter_compl_le s rest entry
                    (CompletionKind.failed
                      (error_or_default err "Secret resolution failed")) id
                  have h2 := completeWaiter_pend s rest entry
                    (CompletionKind.failed
                      (error_or_default err "Secret resolution failed")) id
                  omega

theorem dstep_count_bound (s : DispatchState) (e : DEvent) (id : String) :
    complCount (dstep s e) id + pendCount (dstep s e) id
      ≤ complCount s id + pendCount s id + sendCount [e] id := by
  cases e with
  | send i k =>
      simp only [dstep, complCount, pendCount, sendCount, List.countP_append,
        List.countP_cons, List.countP_nil]
      omega
  | recv m =>
      have h := recv_count_bound s m id
      have hz : sendCount [DEvent.recv m] id = 0 := by
        simp [sendCount]
      simp only [dstep]
      omega
  | markDone i =>
      have hp : List.countP (fun e => e.id == id) (markDoneIn s.pending i)
          = List.countP (fun e => e.id == id) s.pending := by
        unfold markDoneIn
        rw [List.countP_map]
        apply List.countP_congr
        intro e _
        by_cases he : (e.id == i) = true <;> simp [he, Function.comp]
      simp only [dstep, complCount, pendCount]
      rw [hp]
      simp [sendCount]
  | drain msg =>
      have hle : List.countP (fun c => c.id == id)
            ((s.pending.filter (fun e => !e.done)).map
              (fun e => ({ id := e.id, kind := CompletionKind.failed msg } :
                Completion)))
          ≤ List.countP (fun e => e.id == id) s.pending := by
        rw [List.countP_map]
        calc List.countP ((fun c => c.id == id) ∘
              (fun e => ({ id := e.id, kind := CompletionKind.failed msg } :
                Completion))) (s.pending.filter (fun e => !e.done))
            = List.countP (fun e => e.id == id)
                (s.pending.filter (fun e => !e.done)) := by
              apply List.countP_congr
              intro e _
              simp [Function.comp]
          _ ≤ List.countP (fun e => e.id == id) s.pending :=
              (List.filter_sublist s.pending).countP_le _
      simp only [dstep, complCount, pendCount, List.countP_append,
        List.countP_nil]
      have hz : sendCount [DEvent.drain msg] id = 0 := by
        simp [sendCount]
      omega

theorem drun_count_bound :
    ∀ (evs : List DEvent) (s : DispatchState) (id : String),
      complCount (drun s evs) id + pendCount (drun s evs) id
        ≤ complCount s id + pendCount s id + sendCount evs id := by
  intro evs
  induction evs with
  | nil => intro s id; simp [drun, sendCount]
  | cons e evs ih =>
      intro s id
      have h1 := ih (dstep s e) id
      have h2 := dstep_count_bound s e id
      have h3 : sendCount (e :: evs) id = sendCount [e] id + sendCount evs id := by
        simp [sendCount, List.countP_cons]
        omega
      simp only [drun]
      omega

theorem completeWaiter_completion_src (s : DispatchState)
    (rest : List PendingEntry) (entry : PendingEntry) (k : CompletionKind)
    (c : Completion) (hperm : s.pending.Perm (entry :: rest))
    (hnd : (s.pending.map PendingEntry.id).Nodup)
    (hc : c ∈ (completeWaiter s rest entry k).completions) :
    c ∈ s.completions
      ∨ (ridInPending s.pending (some c.id) = true
         ∧ ridInPending (completeWaiter s rest entry k).pending (some c.id)
             = false) := by
  have hpend : (completeWaiter s rest entry k).pending = rest := by
    unfold completeWaiter
    split <;> rfl
  unfold completeWaiter at hc
  by_cases hd : entry.done
  · rw [if_pos hd] at hc
    exact Or.inl hc
  · rw [if_neg hd] at hc
    simp only [List.mem_append, List.mem_singleton] at hc
    cases hc with
    | inl h => exact Or.inl h
    | inr h =>
        subst h
        right
        have hmem : entry ∈ s.pending :=
          hperm.mem_iff.mpr (List.mem_cons_self _ _)
        have hnotin : entry.id ∉ rest.map PendingEntry.id := by
          have hp2 := hperm.map PendingEntry.id
          have hnd2 := hp2.nodup hnd
          exact (List.nodup_cons.mp hnd2).1
        constructor
        · simp only [ridInPending, List.any_eq_true]
          exact ⟨entry, hmem, by simp⟩
        · rw [hpend]
          simp only [ridInPending]
          rw [List.any_eq_false]
          intro e' he'
          simp only [beq_iff_eq]
          intro heq
          exact hnotin (List.mem_map.mpr ⟨e', he', heq⟩)

theorem dstep_completion_src (s : DispatchState) (e : DEvent) (c : Completion)
    (hnd : (s.pending.map PendingEntry.id).Nodup)
    (hc : c ∈ (dstep s e).completions) :
    c ∈ s.completions
      ∨ (ridInPending s.pending (some c.id) = true
         ∧ ridInPending (dstep s e).pending (some c.id) = false) := by
  cases e with
  | send i k => exact Or.inl (by simpa [dstep] using hc)
  | markDone i => exact Or.inl (by simpa [dstep] using hc)
  | drain msg =>
      simp only [dstep, List.mem_append] at hc
      cases hc with
      | inl h => exact Or.inl h
      | inr h =>
          obtain ⟨e', he', heq⟩ := List.mem_map.mp h
          right
          have hmem : e' ∈ s.pending := (List.mem_filter.mp he').1
          have hid : c.id = e'.id := by rw [← heq]
          constructor
          · simp only [ridInPending, List.any_eq_true]
            exact ⟨e', hmem, by simp [hid]⟩
          · simp [dstep, ridInPending]
  | recv m =>
      cases m with
      | cancel reason => exact Or.inl (by simpa [dstep, handle_parent_message] using hc)
      | otherMsg => exact Or.inl (by simpa [dstep, handle_parent_message] using hc)
      | updateResponse rid ok run value err =>
          cases rid with
          | none => exact Or.inl (by simpa [dstep, handle_parent_message] using hc)
          | some r =>
              cases hpop : popById s.pending r with
              | none =>
                  exact Or.inl
                    (by simpa [dstep, handle_parent_message, hpop] using hc)
              | some pr =>
                  obtain ⟨entry, rest⟩ := pr
                  have hperm := (popById_perm s.pending r entry rest hpop).2
                  simp only [dstep, handle_parent_message, hpop] at hc ⊢
                  cases ok with
                  | true =>
                      rw [if_pos rfl] at hc ⊢
                      exact completeWaiter_completion_src s rest entry _ c
                        hperm hnd hc
                  | false =>
                      rw [if_neg (by simp)] at hc ⊢
                      exact completeWaiter_completion_src s rest entry _ c
                        hperm hnd hc
      | resolveSecretResponse rid ok value err =>
          cases rid with
          | none => exact Or.inl (by simpa [dstep, handle_parent_message] using hc)
          | some r =>
              cases hpop : popById s.pending r with
              | none =>
                  exact Or.inl
                    (by simpa [dstep, handle_parent_message, hpop] using hc)
              | some pr =>
                  obtain ⟨entry, rest⟩ := pr
                  have hperm := (popById_perm s.pending r entry rest hpop).2
                  simp only [dstep, handle_parent_message, hpop] at hc ⊢
                  cases ok with
                  | true =>
                      rw [if_pos rfl] at hc ⊢
                      exact completeWaiter_completion_src s rest entry _ c
                        hperm hnd hc
                  | false =>
                      rw [if_neg (by simp)] at hc ⊢
                      exact completeWaiter_completion_src s rest entry _ c
                        hperm hnd hc

/-- C7: for every outbound request id, at most one waiter is ever completed
over any run in which ids are fresh (each id sent at most once); a response
whose id is unknown (including a duplicate for an already-removed id)
leaves the table, the cancel reason and every waiter unchanged; and every
new completion happens exactly while its id sits in the pending table —
present strictly before the step, absent strictly after it. -/
theorem C7_pending_table :
    (∀ evs id, (∀ j, sendCount evs j ≤ 1) →
        complCount (drun initState evs) id ≤ 1)
    ∧ (∀ s rid ok run value err, ridInPending s.pending rid = false →
        handle_parent_message s
          (ParentMsg.updateResponse rid ok run value err) = s)
    ∧ (∀ s rid ok value err, ridInPending s.pending rid = false →
        handle_parent_message s
          (ParentMsg.resolveSecretResponse rid ok value err) = s)
    ∧ (∀ s e c, (s.pending.map PendingEntry.id).Nodup →
        c ∈ (dstep s e).completions →
        c ∈ s.completions
          ∨ (ridInPending s.pending (some c.id) = true
             ∧ ridInPending (dstep s e).pending (some c.id) = false)) := by
  refine ⟨?_, ?_, ?_, ?_⟩
  · intro evs id h
    have hb := drun_count_bound evs initState id
    have h2 := h id
    have hz1 : complCount initState id = 0 := rfl
    have hz2 : pendCount initState id = 0 := rfl
    omega
  · intro s rid ok run value err h
    cases rid with
    | none => rfl
    | some r =>
        simp only [ridInPending] at h
        simp [handle_parent_message, popById_eq_none s.pending r h]
  · intro s rid ok value err h
    cases rid with
    | none => rfl
    | some r =>
        simp only [ridInPending] at h
        simp [handle_parent_message, popById_eq_none s.pending r h]
  · exact dstep_completion_src

/-- Witness for C7: a concrete fresh trace completes the request once; a
response for an unknown id is a no-op; a concrete completion happens with
its id pending before and gone after. -/
theorem C7_pending_table_witness :
    complCount (drun initState [DEvent.send "a" ReqKind.update,
        DEvent.recv (ParentMsg.updateResponse (some "a") true Option.none
          Option.none Option.none)]) "a" ≤ 1
    ∧ handle_parent_message initState
        (ParentMsg.updateResponse (some "x") true Option.none Option.none
          Option.none) = initState
    ∧ ((⟨"a", CompletionKind.resolved Option.none⟩ : Completion)
          ∈ (⟨[⟨"a", ReqKind.update, false⟩], Option.none, []⟩ :
              DispatchState).completions
        ∨ (ridInPending [⟨"a", ReqKind.update, false⟩] (some "a") = true
           ∧ ridInPending (dstep
              (⟨[⟨"a", ReqKind.update, false⟩], Option.none, []⟩ :
                DispatchState)
              (DEvent.recv (ParentMsg.updateResponse (some "a") true
                Option.none Option.none Option.none))).pending (some "a")
             = false)) := by
  refine ⟨?_, ?_, ?_⟩
  · exact C7_pending_table.1 _ "a" (by
      intro j
      by_cases hj : ("a" == j) = true <;>
        simp [sendCount, List.countP_cons, hj])
  · exact C7_pending_table.2.1 initState (some "x") true Option.none
      Option.none Option.none rfl
  · exact C7_pending_table.2.2.2 _ _ _ (by simp) (by
      simp [dstep, handle_parent_message, popById, completeWaiter])

/-- A Python object as seen by handler resolution: only callability and an
identity tag are observable. -/
structure PyObj where
  callable : Bool
  tag : Nat
deriving DecidableEq, Repr

/-- The loaded entry module: its attribute table and the module object
itself (a module can be callable when it overrides `__call__`). -/
structure PyModule where
  attrs : List (String × PyObj)
  self : PyObj
deriving DecidableEq, Repr

/-- `hasattr(module, name)`. -/
def hasattrB (m : PyModule) (name : String) : Bool :=
  (m.attrs.find? (fun p => p.1 == name)).isSome

/-- `getattr(module, name)` (only consulted under a `hasattr` guard). -/
def getattrD (m : PyModule) (name : String) : PyObj :=
  match m.attrs.find? (fun p => p.1 == name) with
  | some p => p.2
  | Option.none => { callable := false, tag := 0 }

/-- Python truthiness of the optional `exportName` string. -/
def truthyName : Option String → Bool
  | some s => !(s == "")
  | Option.none => false

/-- Handler resolution (lines 578-590 of `execute_start`): prefer the
`exportName` attribute when the name is truthy and present (regardless of
callability), then a callable `handler` attribute, then the callable module
itself, then a callable `default` attribute; a non-callable outcome (or no
candidate, modelled by `callable(None) == False`) is fatal. -/
def resolve_handler (exportName : Option String) (m : PyModule) :
    Except String PyObj :=
  let chosen : Option PyObj :=
    if truthyName exportName && hasattrB m (match exportName with
        | some s => s
        | Option.none => "") then
      some (getattrD m (match exportName with
        | some s => s
        | Option.none => ""))
    else if hasattrB m "handler" && (getattrD m "handler").callable then
      some (getattrD m "handler")
    else if m.self.callable then
      some m.self
    else if hasattrB m "default" && (getattrD m "default").callable then
      some (getattrD m "default")
    else Option.none
  match chosen with
  | some h =>
      if h.callable then Except.ok h
      else Except.error "Bundle entry did not export a callable handler"
  | Option.none => Except.error "Bundle entry did not export a callable handler"

/-- C10: when `exportName` is a non-empty string and the module has an
attribute of that name that is not callable, resolution fails fatally with
"Bundle entry did not export a callable handler", without falling back to a
callable `handler` attribute, a callable module object, or a callable
`default` attribute, even when those exist. -/
theorem C10_export_name_no_fallback :
    ∀ (name : String) (m : PyModule) (h : PyObj),
      name ≠ "" →
      (m.attrs.find? (fun p => p.1 == name)) = some (name, h) →
      h.callable = false →
      resolve_handler (some name) m
        = Except.error "Bundle entry did not export a callable handler" := by
  intro name m h hname hfind hcall
  have htruthy : truthyName (some name) = true := by
    simp [truthyName, hname]
  have hhas : hasattrB m name = true := by
    simp [hasattrB, hfind]
  have hget : getattrD m name = h := by
    simp [getattrD, hfind]
  simp [resolve_handler, htruthy, hhas, hget, hcall]

/-- Witness for C10: a module whose exported symbol is not callable fails
even though callable `handler` and `default` attributes and a callable
module object exist. -/
theorem C10_export_name_no_fallback_witness :
    resolve_handler (some "go")
      (⟨[("go", ⟨false, 0⟩), ("handler", ⟨true, 1⟩), ("default", ⟨true, 2⟩)],
        ⟨true, 3⟩⟩ : PyModule)
      = Except.error "Bundle entry did not export a callable handler" :=
  C10_export_name_no_fallback "go"
    ⟨[("go", ⟨false, 0⟩), ("handler", ⟨true, 1⟩), ("default", ⟨true, 2⟩)],
      ⟨true, 3⟩⟩ ⟨false, 0⟩ (by decide) (by simp [List.find?]) rfl
